import Mathlib

/-!
Verification development for the Gramps "Family Group Report" text-report
plugin (gramps/plugins/textreport/familygroup.py).

The document backend is modelled as a trace of emission calls (`DocCall`);
each `dump_*` method of the `FamilyGroup` class becomes a pure function
producing such a trace.  The external database is a structure of total
lookup functions from handles (naturals) to records; the external display
formatters (name display, date display, place display) are modelled as
precomputed string fields on the records, and the gettext translation is
modelled by its identity (English) behaviour.  The progress facility's
per-item call is modelled as a `tick` trace element.
-/

namespace FamilyGroup

/-- Gender of a person (Person.MALE / Person.FEMALE / unknown). -/
inductive Gender where
  | male
  | female
  | unknown
deriving DecidableEq, Repr

/-- Event types; only Marriage is tested by this module, other kinds carry
their display string. -/
inductive EventType where
  | Marriage
  | Birth
  | Death
  | Other (s : String)
deriving DecidableEq, Repr

/-- Display string of an event type (the `_get_type` projection). -/
def EventType.display : EventType → String
  | EventType.Marriage => "Marriage"
  | EventType.Birth => "Birth"
  | EventType.Death => "Death"
  | EventType.Other s => s

/-- Role of an event reference (EventRoleType.FAMILY / PRIMARY / others). -/
inductive EventRoleType where
  | Family
  | Primary
  | OtherRole (s : String)
deriving DecidableEq, Repr

/-- A reference to an event: the event handle plus the reference role. -/
structure EventRef where
  ref : Nat
  role : EventRoleType
deriving DecidableEq, Repr

/-- An event record, with the externally-formatted date and place strings
precomputed (`_get_date` and `place_displayer.display_event`, the latter
already coerced from None to the empty string). -/
structure Event where
  etype : EventType
  dateStr : String
  placeStr : String
  placeHandle : Option Nat
  descr : String
  attrs : List (String × String)
deriving DecidableEq, Repr

/-- An address entry: formatted date and location strings. -/
structure Address where
  dateStr : String
  location : String
deriving DecidableEq, Repr

/-- A note record: styled text, format, and whether its type is HTML code. -/
structure Note where
  text : String
  fmt : Nat
  isHtml : Bool
deriving DecidableEq, Repr

/-- An alternate name: its type's display string and the displayed name. -/
structure AltName where
  typeName : String
  display : String
deriving DecidableEq, Repr

/-- A person record.  `displayName` is the external name formatter's output;
`grampsId` is the empty string when absent; `parentsFamily` is the main
parents family handle. -/
structure Person where
  displayName : String
  grampsId : String
  gender : Gender
  birthRef : Option EventRef
  deathRef : Option EventRef
  primaryEventRefs : List EventRef
  addresses : List Address
  noteHandles : List Nat
  attrs : List (String × String)
  altNames : List AltName
  familyHandles : List Nat
  parentsFamily : Option Nat
deriving Repr

/-- The empty person produced by the `Person()` constructor: everything
absent, empty display name. -/
def Person.empty : Person :=
  { displayName := ""
    grampsId := ""
    gender := Gender.unknown
    birthRef := none
    deathRef := none
    primaryEventRefs := []
    addresses := []
    noteHandles := []
    attrs := []
    altNames := []
    familyHandles := []
    parentsFamily := none }

/-- A child reference inside a family (only its person handle matters here). -/
structure ChildRef where
  ref : Nat
deriving DecidableEq, Repr

/-- A family record.  The event-reference list may hold `none` entries,
matching the code's defensive `if event_ref:` checks. -/
structure Family where
  fatherHandle : Option Nat
  motherHandle : Option Nat
  childRefs : List ChildRef
  eventRefs : List (Option EventRef)
  attrs : List (String × String)
  noteHandles : List Nat
  grampsId : String
deriving Repr

/-- The external database: total handle lookups (a dangling handle is a
fatal error outside this module, so lookups are total here). -/
structure DB where
  persons : Nat → Person
  families : Nat → Family
  events : Nat → Event
  noteRecords : Nat → Note

/-- The report options snapshot read by `FamilyGroup.__init__`. -/
structure Options where
  gramps_ids : Bool
  recursive : Bool
  missingInfo : Bool
  generations : Bool
  incFamNotes : Bool
  incParEvents : Bool
  incParAddr : Bool
  incParNotes : Bool
  incParNames : Bool
  incParMar : Bool
  incRelDates : Bool
  incChiMar : Bool
  includeAttrs : Bool
deriving DecidableEq, Repr

/-- One emission call into the document backend (plus `tick` for the
progress facility's per-family call in the driver). -/
inductive DocCall where
  | startTable (name : String) (style : String)
  | endTable
  | startRow
  | endRow
  | startCell (style : String) (span : Nat)
  | endCell
  | startParagraph (style : String)
  | endParagraph
  | writeText (s : String)
  | writeStyledNote (text : String) (fmt : Nat) (style : String) (containsHtml : Bool)
  | pageBreak
  | tick
deriving DecidableEq, Repr

/-- Description string of an event as built by `dump_parent_event`:
the event's description, with attributes appended (separated by "; ")
when attribute inclusion is on. -/
def eventDescr (o : Options) (e : Event) : String :=
  if o.includeAttrs then
    e.attrs.foldl
      (fun d a => (if d ≠ "" then d ++ "; " else d) ++ a.1 ++ ": " ++ a.2)
      e.descr
  else e.descr

/-- `FamilyGroup.dump_parent_event`: a name/description/date/place row group. -/
def dump_parent_event (o : Options) (name : String) (event : Option Event) : List DocCall :=
  let date := match event with
    | none => ""
    | some e => e.dateStr
  let place := match event with
    | none => ""
    | some e => e.placeStr
  let descr := match event with
    | none => ""
    | some e => eventDescr o e
  [DocCall.startRow, DocCall.startCell "FGR-TextContents" 1,
   DocCall.startParagraph "FGR-Normal", DocCall.writeText name,
   DocCall.endParagraph, DocCall.endCell]
  ++ (if descr ≠ "" then
        [DocCall.startCell "FGR-TextContentsEnd" 2,
         DocCall.startParagraph "FGR-Normal", DocCall.writeText descr,
         DocCall.endParagraph, DocCall.endCell, DocCall.endRow]
        ++ (if date ≠ "" ∨ place ≠ "" then
              [DocCall.startRow, DocCall.startCell "FGR-TextContents" 1,
               DocCall.startParagraph "FGR-Normal", DocCall.endParagraph,
               DocCall.endCell]
            else [])
      else [])
  ++ (if (date ≠ "" ∨ place ≠ "") ∨ descr = "" then
        [DocCall.startCell "FGR-TextContents" 1,
         DocCall.startParagraph "FGR-Normal", DocCall.writeText date,
         DocCall.endParagraph, DocCall.endCell,
         DocCall.startCell "FGR-TextContentsEnd" 1,
         DocCall.startParagraph "FGR-Normal", DocCall.writeText place,
         DocCall.endParagraph, DocCall.endCell, DocCall.endRow]
      else [])

/-- `FamilyGroup.dump_parent_line`: a single two-cell name/text row. -/
def dump_parent_line (name : String) (text : String) : List DocCall :=
  [DocCall.startRow, DocCall.startCell "FGR-TextContents" 1,
   DocCall.startParagraph "FGR-Normal", DocCall.writeText name,
   DocCall.endParagraph, DocCall.endCell,
   DocCall.startCell "FGR-TextContentsEnd" 2,
   DocCall.startParagraph "FGR-Normal", DocCall.writeText text,
   DocCall.endParagraph, DocCall.endCell, DocCall.endRow]

/-- `FamilyGroup.dump_parent_noteline`: a name/styled-note row. -/
def dump_parent_noteline (name : String) (note : Note) : List DocCall :=
  [DocCall.startRow, DocCall.startCell "FGR-TextContents" 1,
   DocCall.startParagraph "FGR-Normal", DocCall.writeText name,
   DocCall.endParagraph, DocCall.endCell,
   DocCall.startCell "FGR-TextContentsEnd" 2,
   DocCall.writeStyledNote note.text note.fmt "FGR-Note" note.isHtml,
   DocCall.endCell, DocCall.endRow]

/-- The relative-dates annotation " (birth - death)" appended to a relative's
name when `incRelDates` is on and a birth or death reference exists. -/
def relDateSuffix (db : DB) (o : Options) (p : Person) : String :=
  if o.incRelDates then
    let birth := match p.birthRef with
      | some r => (db.events r.ref).dateStr
      | none => "  "
    let death := match p.deathRef with
      | some r => (db.events r.ref).dateStr
      | none => "  "
    if p.birthRef.isSome ∨ p.deathRef.isSome then
      " (" ++ birth ++ " - " ++ death ++ ")"
    else ""
  else ""

/-- Name of one of the parent's own parents as built in
`dump_parent_parents`: display name, optional gramps id, optional
relative-dates annotation. -/
def grandParentName (db : DB) (o : Options) (ph : Nat) : String :=
  let p := db.persons ph
  (p.displayName
    ++ (if o.gramps_ids ∧ p.grampsId ≠ "" then " (" ++ p.grampsId ++ ")" else ""))
  ++ relDateSuffix db o p

/-- `FamilyGroup.dump_parent_parents`: Father/Mother rows for the parent's
own parents (placeholder rows under the missing-info policy). -/
def dump_parent_parents (db : DB) (o : Options) (person : Person) : List DocCall :=
  let fatherName := match person.parentsFamily with
    | none => ""
    | some fh =>
      match (db.families fh).fatherHandle with
      | none => ""
      | some ph => grandParentName db o ph
  let motherName := match person.parentsFamily with
    | none => ""
    | some fh =>
      match (db.families fh).motherHandle with
      | none => ""
      | some ph => grandParentName db o ph
  (if fatherName ≠ "" then
      [DocCall.startRow, DocCall.startCell "FGR-TextContents" 1,
       DocCall.startParagraph "FGR-Normal", DocCall.writeText "Father",
       DocCall.endParagraph, DocCall.endCell,
       DocCall.startCell "FGR-TextContentsEnd" 2,
       DocCall.startParagraph "FGR-Normal", DocCall.writeText fatherName,
       DocCall.endParagraph, DocCall.endCell, DocCall.endRow]
    else if o.missingInfo then dump_parent_line "Father" "" else [])
  ++ (if motherName ≠ "" then
        [DocCall.startRow, DocCall.startCell "FGR-TextContents" 1,
         DocCall.startParagraph "FGR-Normal", DocCall.writeText "Mother",
         DocCall.endParagraph, DocCall.endCell,
         DocCall.startCell "FGR-TextContentsEnd" 2,
         DocCall.startParagraph "FGR-Normal", DocCall.writeText motherName,
         DocCall.endParagraph, DocCall.endCell, DocCall.endRow]
      else if o.missingInfo then dump_parent_line "Mother" "" else [])

/-- One address row inside `dump_parent` (the `incParAddr` loop body). -/
def addressRow (addr : Address) : List DocCall :=
  [DocCall.startRow, DocCall.startCell "FGR-TextContents" 1,
   DocCall.startParagraph "FGR-Normal", DocCall.writeText "Address",
   DocCall.endParagraph, DocCall.endCell,
   DocCall.startCell "FGR-TextContents" 1,
   DocCall.startParagraph "FGR-Normal", DocCall.writeText addr.dateStr,
   DocCall.endParagraph, DocCall.endCell,
   DocCall.startCell "FGR-TextContentsEnd" 1,
   DocCall.startParagraph "FGR-Normal", DocCall.writeText addr.location,
   DocCall.endParagraph, DocCall.endCell, DocCall.endRow]

/-- Body of `FamilyGroup.dump_parent` once the person record is resolved
(either a database lookup or the empty person). -/
def dumpParentPerson (db : DB) (o : Options) (title : String) (person : Person) : List DocCall :=
  let name := person.displayName
  let birth := person.birthRef.map (fun r => db.events r.ref)
  let death := person.deathRef.map (fun r => db.events r.ref)
  [DocCall.startTable title "FGR-ParentTable", DocCall.startRow,
   DocCall.startCell "FGR-ParentHead" 3, DocCall.startParagraph "FGR-ParentName",
   DocCall.writeText (title ++ ": " ++ name)]
  ++ (if o.gramps_ids ∧ person.grampsId ≠ "" then
        [DocCall.writeText (" (" ++ person.grampsId ++ ")")]
      else [])
  ++ [DocCall.endParagraph, DocCall.endCell, DocCall.endRow]
  ++ (if birth.isSome ∨ o.missingInfo then dump_parent_event o "Birth" birth else [])
  ++ (if death.isSome ∨ o.missingInfo then dump_parent_event o "Death" death else [])
  ++ dump_parent_parents db o person
  ++ (if o.incParEvents then
        (person.primaryEventRefs.map (fun er =>
          if some er ≠ person.birthRef ∧ some er ≠ person.deathRef then
            dump_parent_event o (db.events er.ref).etype.display (some (db.events er.ref))
          else [])).flatten
      else [])
  ++ (if o.incParAddr then (person.addresses.map addressRow).flatten else [])
  ++ (if o.incParNotes then
        (person.noteHandles.map (fun nh =>
          dump_parent_noteline "Note" (db.noteRecords nh))).flatten
      else [])
  ++ (if o.includeAttrs then
        (person.attrs.map (fun a => dump_parent_line a.1 a.2)).flatten
      else [])
  ++ (if o.incParNames then
        (person.altNames.map (fun an => dump_parent_line an.typeName an.display)).flatten
      else [])
  ++ [DocCall.endTable]

/-- `FamilyGroup.dump_parent`: renders one parent block, or nothing when the
handle is absent and the missing-info option is off. -/
def dump_parent (db : DB) (o : Options) (title : String) (person_handle : Option Nat) : List DocCall :=
  match person_handle with
  | none =>
    if o.missingInfo then dumpParentPerson db o title Person.empty else []
  | some h => dumpParentPerson db o title (db.persons h)

/-- Whether an event reference qualifies as the family's marriage event in
`dump_marriage`: type Marriage and role FAMILY or PRIMARY. -/
def qualifiesMarriage (db : DB) (er : EventRef) : Bool :=
  (db.events er.ref).etype = EventType.Marriage
    ∧ (er.role = EventRoleType.Family ∨ er.role = EventRoleType.Primary)

/-- The marriage-event search loop of `FamilyGroup.dump_marriage`: first
event of type Marriage with role FAMILY or PRIMARY, in list order. -/
def findMarriage (db : DB) : List (Option EventRef) → Option Event
  | [] => none
  | none :: rest => findMarriage db rest
  | some er :: rest =>
    if qualifiesMarriage db er then some (db.events er.ref)
    else findMarriage db rest

/-- The other-events loop of `dump_marriage`: every present event reference
whose event type is not Marriage produces a `dump_parent_event` block. -/
def otherFamilyEvents (db : DB) (o : Options) : List (Option EventRef) → List DocCall
  | [] => []
  | none :: rest => otherFamilyEvents db o rest
  | some er :: rest =>
    (if (db.events er.ref).etype ≠ EventType.Marriage then
        dump_parent_event o (db.events er.ref).etype.display (some (db.events er.ref))
      else [])
    ++ otherFamilyEvents db o rest

/-- `FamilyGroup.dump_marriage`: marriage block for a family (header row,
marriage row, other events, optional attributes and notes). -/
def dump_marriage (db : DB) (o : Options) (family : Option Family) : List DocCall :=
  match family with
  | none => []
  | some fam =>
    let mrg := findMarriage db fam.eventRefs
    if fam.eventRefs.length > 0 ∨ o.missingInfo ∨ o.includeAttrs then
      [DocCall.startTable "MarriageInfo" "FGR-ParentTable", DocCall.startRow,
       DocCall.startCell "FGR-ParentHead" 3,
       DocCall.startParagraph "FGR-ParentName",
       DocCall.writeText
         (( "Marriage"
             ++ (if o.gramps_ids then " (" ++ fam.grampsId ++ ")" else "")) ++ ":"),
       DocCall.endParagraph, DocCall.endCell, DocCall.endRow]
      ++ dump_parent_event o "Marriage" mrg
      ++ otherFamilyEvents db o fam.eventRefs
      ++ (if o.includeAttrs then
            (fam.attrs.map (fun a => dump_parent_line a.1 a.2)).flatten
          else [])
      ++ (if o.incFamNotes then
            (fam.noteHandles.map (fun nh =>
              dump_parent_noteline "Note" (db.noteRecords nh))).flatten
          else [])
      ++ [DocCall.endTable]
    else []

/-- `FamilyGroup.dump_child_event`: one four-cell row; the place is shown
only when the event has a place handle. -/
def dump_child_event (text : String) (name : String) (event : Option Event) : List DocCall :=
  let date := match event with
    | none => ""
    | some e => e.dateStr
  let place := match event with
    | none => ""
    | some e => if e.placeHandle.isSome then e.placeStr else ""
  [DocCall.startRow, DocCall.startCell text 1,
   DocCall.startParagraph "FGR-Normal", DocCall.endParagraph, DocCall.endCell,
   DocCall.startCell "FGR-TextContents" 1, DocCall.startParagraph "FGR-Normal",
   DocCall.writeText name, DocCall.endParagraph, DocCall.endCell,
   DocCall.startCell "FGR-TextContents" 1, DocCall.startParagraph "FGR-Normal",
   DocCall.writeText date, DocCall.endParagraph, DocCall.endCell,
   DocCall.startCell "FGR-TextContentsEnd" 1, DocCall.startParagraph "FGR-Normal",
   DocCall.writeText place, DocCall.endParagraph, DocCall.endCell, DocCall.endRow]

/-- The other parent of a family relative to a given person: the mother when
the person is the father, otherwise the father. -/
def spouseIdOf (person_handle : Nat) (fam : Family) : Option Nat :=
  if fam.fatherHandle = some person_handle then fam.motherHandle
  else fam.fatherHandle

/-- The marriage-event search loop inside `dump_child`: first event of type
Marriage in list order, with no role requirement. -/
def findChildMarriage (db : DB) : List (Option EventRef) → Option Event
  | [] => none
  | none :: rest => findChildMarriage db rest
  | some er :: rest =>
    if (db.events er.ref).etype = EventType.Marriage then some (db.events er.ref)
    else findChildMarriage db rest

/-- Number of the child's families with a present spouse handle, as counted
by `dump_child` (zero when children's marriages are not included). -/
def spouseCount (db : DB) (o : Options) (person_handle : Nat) (p : Person) : Nat :=
  if o.incChiMar then
    (p.familyHandles.filter
      (fun fh => (spouseIdOf person_handle (db.families fh)).isSome)).length
  else 0

/-- The spouse display string built inside `dump_child`'s family loop. -/
def spouseNameStr (db : DB) (o : Options) (spouse : Person) (fam : Family) : String :=
  ((spouse.displayName
      ++ (if o.gramps_ids ∧ spouse.grampsId ≠ "" then
            " (" ++ spouse.grampsId ++ ")"
          else ""))
    ++ relDateSuffix db o spouse)
  ++ (if o.gramps_ids ∧ fam.grampsId ≠ "" then " (" ++ fam.grampsId ++ ")" else "")

/-- The spouse row of one family inside `dump_child`'s family loop; empty
when the spouse handle is absent. -/
def spousePart (db : DB) (o : Options) (fam : Family) (mrg : Option Event)
    (idx : Nat) (families : Nat) (spouse_id : Option Nat) : List DocCall :=
  match spouse_id with
  | none => []
  | some sid =>
    [DocCall.startRow,
     DocCall.startCell
       (if mrg.isSome ∨ idx ≠ families then "FGR-TextChild1" else "FGR-TextChild2") 1,
     DocCall.startParagraph "FGR-Normal", DocCall.endParagraph, DocCall.endCell,
     DocCall.startCell "FGR-TextContents" 1, DocCall.startParagraph "FGR-Normal",
     DocCall.writeText "Spouse", DocCall.endParagraph, DocCall.endCell,
     DocCall.startCell "FGR-TextContentsEnd" 2, DocCall.startParagraph "FGR-Normal",
     DocCall.writeText (spouseNameStr db o (db.persons sid) fam),
     DocCall.endParagraph, DocCall.endCell, DocCall.endRow]

/-- The marriage-event row of one family inside `dump_child`'s family loop;
empty when no Marriage-typed event was found. -/
def marriagePart (mrg : Option Event) (idx : Nat) (families : Nat) : List DocCall :=
  match mrg with
  | none => []
  | some m =>
    dump_child_event
      (if idx = families then "FGR-TextChild2" else "FGR-TextChild1")
      "Marriage" (some m)

/-- One iteration of `dump_child`'s family loop: spouse row (when the spouse
handle is present) followed by the marriage-event row (when found). -/
def child_family_block (db : DB) (o : Options) (person_handle : Nat)
    (families : Nat) (idx : Nat) (fh : Nat) : List DocCall :=
  let fam := db.families fh
  let mrg := findChildMarriage db fam.eventRefs
  spousePart db o fam mrg idx families (spouseIdOf person_handle fam)
  ++ marriagePart mrg idx families

/-- `dump_child`'s family loop, with the one-based running index threaded
exactly as in the code (incremented at the top of each iteration). -/
def dump_child_fams (db : DB) (o : Options) (person_handle : Nat)
    (families : Nat) : Nat → List Nat → List DocCall
  | _, [] => []
  | idx, fh :: rest =>
    child_family_block db o person_handle families (idx + 1) fh
    ++ dump_child_fams db o person_handle families (idx + 1) rest

/-- The sex-coded index label written for a child ("1M" / "2F" / "3U"). -/
def sexIndexLabel (g : Gender) (index : Nat) : String :=
  match g with
  | Gender.male => toString index ++ "M"
  | Gender.female => toString index ++ "F"
  | Gender.unknown => toString index ++ "U"

/-- `FamilyGroup.dump_child`: one child's group of rows in the children
table (index/name row, optional birth and death rows, then per-family
spouse and marriage rows when children's marriages are included). -/
def dump_child (db : DB) (o : Options) (index : Nat) (person_handle : Nat) : List DocCall :=
  let person := db.persons person_handle
  let families := person.familyHandles.length
  let birth := person.birthRef.map (fun r => db.events r.ref)
  let death := person.deathRef.map (fun r => db.events r.ref)
  let sc := spouseCount db o person_handle person
  [DocCall.startRow,
   DocCall.startCell
     (if sc ≠ 0 ∨ o.missingInfo ∨ death.isSome ∨ birth.isSome then
        "FGR-TextChild1"
      else "FGR-TextChild2") 1,
   DocCall.startParagraph "FGR-ChildText",
   DocCall.writeText (sexIndexLabel person.gender index),
   DocCall.endParagraph, DocCall.endCell,
   DocCall.startCell "FGR-ChildName" 3, DocCall.startParagraph "FGR-ChildText",
   DocCall.writeText person.displayName]
  ++ (if o.gramps_ids then [DocCall.writeText (" (" ++ person.grampsId ++ ")")] else [])
  ++ [DocCall.endParagraph, DocCall.endCell, DocCall.endRow]
  ++ (if o.missingInfo ∨ birth.isSome then
        dump_child_event
          (if sc ≠ 0 ∨ o.missingInfo ∨ death.isSome then
             "FGR-TextChild1"
           else "FGR-TextChild2")
          "Birth" birth
      else [])
  ++ (if o.missingInfo ∨ death.isSome then
        dump_child_event
          (if sc = 0 ∨ ¬ o.incChiMar then "FGR-TextChild2" else "FGR-TextChild1")
          "Death" death
      else [])
  ++ (if o.incChiMar then
        dump_child_fams db o person_handle families 0 person.familyHandles
      else [])

/-- The children loop of `dump_family`: child groups in child-reference-list
order, indices counting up from the given start. -/
def childrenRows (db : DB) (o : Options) : Nat → List ChildRef → List DocCall
  | _, [] => []
  | idx, cr :: rest =>
    dump_child db o idx cr.ref ++ childrenRows db o (idx + 1) rest

/-- The title string of a family section: generation-numbered only when both
the recursion and the generation-numbering options are on. -/
def famTitle (o : Options) (generation : Nat) : String :=
  if o.recursive ∧ o.generations then
    "Family Group Report - Generation " ++ toString generation
  else "Family Group Report"

/-- A blank separator paragraph. -/
def blankPara : List DocCall :=
  [DocCall.startParagraph "FGR-blank", DocCall.endParagraph]

/-- The children table of `dump_family`: blank paragraph, header row, child
groups, table end — omitted entirely when the family has no children. -/
def childrenSection (db : DB) (o : Options) (fam : Family) : List DocCall :=
  if fam.childRefs.length > 0 then
    blankPara
    ++ [DocCall.startTable "FGR-Children" "FGR-ChildTable", DocCall.startRow,
        DocCall.startCell "FGR-ParentHead" 4,
        DocCall.startParagraph "FGR-ParentName", DocCall.writeText "Children",
        DocCall.endParagraph, DocCall.endCell, DocCall.endRow]
    ++ childrenRows db o 1 fam.childRefs
    ++ [DocCall.endTable]
  else []

/-- The non-recursive body of one family section in `dump_family`: husband
block, marriage block (when included), wife block, children table. -/
def familyBody (db : DB) (o : Options) (family_handle : Nat) : List DocCall :=
  let fam := db.families family_handle
  dump_parent db o "Husband" fam.fatherHandle
  ++ blankPara
  ++ (if o.incParMar then dump_marriage db o (some fam) ++ blankPara else [])
  ++ dump_parent db o "Wife" fam.motherHandle
  ++ childrenSection db o fam

/-- The child-family handles `dump_family` recurses into: every family of
every child other than the current family, in loop order (empty when the
recursion option is off). -/
def recursedHandles (db : DB) (o : Options) (family_handle : Nat) : List Nat :=
  if o.recursive then
    ((db.families family_handle).childRefs.map (fun cr =>
      (db.persons cr.ref).familyHandles.filter
        (fun cfh => cfh ≠ family_handle))).flatten
  else []

/-- `FamilyGroup.dump_family`: title paragraph, family body, then — when
recursion is on — a page break and a recursive section for every family of
every child other than the current one.  The extra fuel argument bounds the
recursion depth (the code itself has no cycle guard beyond skipping the
current family). -/
def dump_family : Nat → DB → Options → Nat → Nat → List DocCall
  | 0, _, _, _, _ => []
  | fuel + 1, db, o, family_handle, generation =>
    [DocCall.startParagraph "FGR-Title",
     DocCall.writeText (famTitle o generation), DocCall.endParagraph]
    ++ familyBody db o family_handle
    ++ (if o.recursive then
          ((db.families family_handle).childRefs.map (fun cr =>
            ((db.persons cr.ref).familyHandles.map (fun cfh =>
              if cfh ≠ family_handle then
                DocCall.pageBreak :: dump_family fuel db o cfh (generation + 1)
              else [])).flatten)).flatten
        else [])

/-- `FamilyGroup.write_report` after the filter has produced the family
list: each family at generation 1 followed by a page break and a progress
tick, or a single title-only paragraph when the list is empty. -/
def write_report (fuel : Nat) (db : DB) (o : Options) (fam_list : List Nat) : List DocCall :=
  match fam_list with
  | [] =>
    [DocCall.startParagraph "FGR-Title",
     DocCall.writeText "Family Group Report", DocCall.endParagraph]
  | _ :: _ =>
    (fam_list.map (fun fh =>
      dump_family fuel db o fh 1 ++ [DocCall.pageBreak, DocCall.tick])).flatten

/-- Spec-side reading of the parents' marriage-event selection: the first
present event reference of type Marriage with role FAMILY or PRIMARY. -/
def specFirstMarriage (db : DB) (refs : List (Option EventRef)) : Option Event :=
  ((refs.filterMap id).find? (fun er => qualifiesMarriage db er)).map
    (fun er => db.events er.ref)

/-- Spec-side reading of the child's marriage-event selection: the first
present event reference of type Marriage, regardless of role. -/
def specFirstChildMarriage (db : DB) (refs : List (Option EventRef)) : Option Event :=
  ((refs.filterMap id).find?
      (fun er => (db.events er.ref).etype = EventType.Marriage)).map
    (fun er => db.events er.ref)

/-- The leading-cell style of every row of a trace: the style of the first
`startCell` after each `startRow`.  The flag records whether the next
`startCell` opens a row. -/
def leadCellStyles : Bool → List DocCall → List String
  | _, [] => []
  | b, c :: rest =>
    match c with
    | DocCall.startRow => leadCellStyles true rest
    | DocCall.startCell s _ =>
      if b then s :: leadCellStyles false rest else leadCellStyles false rest
    | _ => leadCellStyles b rest

/-- The claimed child-group styling discipline: the last row's leading cell
closes the border ('FGR-TextChild2') and every earlier row's leading cell
continues it ('FGR-TextChild1'). -/
def goodStylesB (l : List String) : Bool :=
  (l.getLast? == some "FGR-TextChild2")
    && l.dropLast.all (fun s => s == "FGR-TextChild1")

/-! Sample records used for concrete instances. -/

/-- An event of a non-marriage kind with all display fields empty. -/
def trivialEvent : Event :=
  { etype := EventType.Other "", dateStr := "", placeStr := "",
    placeHandle := none, descr := "", attrs := [] }

/-- A Marriage-typed event with all display fields empty. -/
def marriageEvent : Event :=
  { trivialEvent with etype := EventType.Marriage }

/-- A Birth-typed event with all display fields empty. -/
def birthEvent : Event :=
  { trivialEvent with etype := EventType.Birth }

/-- A family with no parents, children or events. -/
def trivialFamily : Family :=
  { fatherHandle := none, motherHandle := none, childRefs := [],
    eventRefs := [], attrs := [], noteHandles := [], grampsId := "" }

/-- An empty note. -/
def trivialNote : Note := { text := "", fmt := 0, isHtml := false }

/-- A database where every lookup yields an empty record. -/
def trivialDB : DB :=
  { persons := fun _ => Person.empty, families := fun _ => trivialFamily,
    events := fun _ => trivialEvent, noteRecords := fun _ => trivialNote }

/-- All options switched off. -/
def allOff : Options :=
  { gramps_ids := false, recursive := false, missingInfo := false,
    generations := false, incFamNotes := false, incParEvents := false,
    incParAddr := false, incParNotes := false, incParNames := false,
    incParMar := false, incRelDates := false, incChiMar := false,
    includeAttrs := false }

/-- Only the missing-info option on. -/
def missingOnly : Options := { allOff with missingInfo := true }

/-- Only the children's-marriage option on. -/
def chiMarOnly : Options := { allOff with incChiMar := true }

/-- Recursion and generation numbering on, everything else off. -/
def recGenOpts : Options := { allOff with recursive := true, generations := true }

/-- A male person with a birth event and one family membership (handle 10). -/
def samplePerson1 : Person :=
  { Person.empty with
      gender := Gender.male
      birthRef := some { ref := 100, role := EventRoleType.Primary }
      familyHandles := [10] }

/-- A family whose father is person 1, with no mother, and a single
Marriage-typed event whose reference role is neither FAMILY nor PRIMARY. -/
def sampleFamily10 : Family :=
  { trivialFamily with
      fatherHandle := some 1
      eventRefs := [some { ref := 200, role := EventRoleType.OtherRole "" }] }

/-- A database holding `samplePerson1` at handle 1, `sampleFamily10` at
handle 10, a birth event at 100 and a marriage event at 200. -/
def sampleDB : DB :=
  { persons := fun n => if n = 1 then samplePerson1 else Person.empty
    families := fun n => if n = 10 then sampleFamily10 else trivialFamily
    events := fun n =>
      if n = 100 then birthEvent else if n = 200 then marriageEvent else trivialEvent
    noteRecords := fun _ => trivialNote }

/-- The fixed header rows of the marriage block. -/
def marriageHeader (o : Options) (fam : Family) : List DocCall :=
  [DocCall.startTable "MarriageInfo" "FGR-ParentTable", DocCall.startRow,
   DocCall.startCell "FGR-ParentHead" 3, DocCall.startParagraph "FGR-ParentName",
   DocCall.writeText
     (( "Marriage" ++ (if o.gramps_ids then " (" ++ fam.grampsId ++ ")" else ""))
       ++ ":"),
   DocCall.endParagraph, DocCall.endCell, DocCall.endRow]

/-- The event row rendered for an absent event: empty date, place and
description (no description cell at all, empty date and place cells). -/
def emptyEventRow (name : String) : List DocCall :=
  [DocCall.startRow, DocCall.startCell "FGR-TextContents" 1,
   DocCall.startParagraph "FGR-Normal", DocCall.writeText name,
   DocCall.endParagraph, DocCall.endCell,
   DocCall.startCell "FGR-TextContents" 1, DocCall.startParagraph "FGR-Normal",
   DocCall.writeText "", DocCall.endParagraph, DocCall.endCell,
   DocCall.startCell "FGR-TextContentsEnd" 1, DocCall.startParagraph "FGR-Normal",
   DocCall.writeText "", DocCall.endParagraph, DocCall.endCell, DocCall.endRow]

/-- The placeholder parent block rendered for an absent parent handle under
the missing-info policy: header with the empty person's display name, empty
Birth and Death rows, placeholder Father and Mother rows. -/
def parentPlaceholderBlock (title : String) : List DocCall :=
  [DocCall.startTable title "FGR-ParentTable", DocCall.startRow,
   DocCall.startCell "FGR-ParentHead" 3, DocCall.startParagraph "FGR-ParentName",
   DocCall.writeText (title ++ ": " ++ Person.empty.displayName),
   DocCall.endParagraph, DocCall.endCell, DocCall.endRow]
  ++ emptyEventRow "Birth" ++ emptyEventRow "Death"
  ++ dump_parent_line "Father" "" ++ dump_parent_line "Mother" ""
  ++ [DocCall.endTable]

/-- A cell-level call: anything but a table boundary, page break or tick. -/
def rowOnly (c : DocCall) : Bool :=
  match c with
  | DocCall.startTable _ _ => false
  | DocCall.endTable => false
  | DocCall.pageBreak => false
  | DocCall.tick => false
  | _ => true

/-- Not the progress tick. -/
def noTick (c : DocCall) : Bool :=
  match c with
  | DocCall.tick => false
  | _ => true

/-- Not the opening of the children table. -/
def notChildrenTable (c : DocCall) : Bool :=
  match c with
  | DocCall.startTable n _ => !(n == "FGR-Children")
  | _ => true

/-- Whether a call starts a paragraph. -/
def isStartParagraph (c : DocCall) : Bool :=
  match c with
  | DocCall.startParagraph _ => true
  | _ => false

/-! Shared lemmas. -/

/-- The marriage search loop of `dump_marriage` returns the first present
event reference that qualifies (type Marriage, role FAMILY or PRIMARY). -/
theorem findMarriage_eq_spec (db : DB) :
    ∀ refs, findMarriage db refs = specFirstMarriage db refs := by
  intro refs
  induction refs with
  | nil => rfl
  | cons hd tl ih =>
    cases hd with
    | none => simpa [findMarriage, specFirstMarriage] using ih
    | some er =>
      by_cases h : qualifiesMarriage db er = true
      · simp [findMarriage, specFirstMarriage, h, List.find?]
      · simp only [Bool.not_eq_true] at h
        simpa [findMarriage, specFirstMarriage, h, List.find?] using ih

/-- The marriage search loop of `dump_child` returns the first present
event reference of type Marriage, with no role requirement. -/
theorem findChildMarriage_eq_spec (db : DB) :
    ∀ refs, findChildMarriage db refs = specFirstChildMarriage db refs := by
  intro refs
  induction refs with
  | nil => rfl
  | cons hd tl ih =>
    cases hd with
    | none => simpa [findChildMarriage, specFirstChildMarriage] using ih
    | some er =>
      by_cases h : (db.events er.ref).etype = EventType.Marriage
      · simp [findChildMarriage, specFirstChildMarriage, h, List.find?]
      · simpa [findChildMarriage, specFirstChildMarriage, h, List.find?] using ih

/-- The other-events loop of `dump_marriage` renders exactly the present
non-Marriage-typed events, in list order. -/
theorem otherFamilyEvents_eq (db : DB) (o : Options) :
    ∀ refs, otherFamilyEvents db o refs
      = (((refs.filterMap id).filter
            (fun er => ¬((db.events er.ref).etype = EventType.Marriage))).map
          (fun er => dump_parent_event o (db.events er.ref).etype.display
            (some (db.events er.ref)))).flatten := by
  intro refs
  induction refs with
  | nil => rfl
  | cons hd tl ih =>
    cases hd with
    | none => simpa [otherFamilyEvents] using ih
    | some er =>
      by_cases h : (db.events er.ref).etype = EventType.Marriage
      · simpa [otherFamilyEvents, h, List.filter_cons] using ih
      · simp [otherFamilyEvents, h, List.filter_cons, ih]

/-- `dump_parent_event` on an absent event renders the empty-fields row. -/
theorem dump_parent_event_none (o : Options) (name : String) :
    dump_parent_event o name none = emptyEventRow name := by
  simp [dump_parent_event, emptyEventRow]

/-- Claim C1: the marriage block's marriage event is the first event in the
family's event-reference list of type Marriage with role FAMILY or PRIMARY;
all other non-Marriage-typed family events are listed after the marriage
row, in list order, and Marriage-typed events never appear among the other
events. -/
theorem c1_marriage_selection (db : DB) (o : Options) (fam : Family) :
    findMarriage db fam.eventRefs = specFirstMarriage db fam.eventRefs
    ∧ otherFamilyEvents db o fam.eventRefs
        = (((fam.eventRefs.filterMap id).filter
              (fun er => ¬((db.events er.ref).etype = EventType.Marriage))).map
            (fun er => dump_parent_event o (db.events er.ref).etype.display
              (some (db.events er.ref)))).flatten
    ∧ (fam.eventRefs.length > 0 ∨ o.missingInfo = true ∨ o.includeAttrs = true →
        ∃ post, dump_marriage db o (some fam)
          = marriageHeader o fam
            ++ dump_parent_event o "Marriage" (specFirstMarriage db fam.eventRefs)
            ++ otherFamilyEvents db o fam.eventRefs ++ post) := by
  refine ⟨findMarriage_eq_spec db _, otherFamilyEvents_eq db o _, fun h => ?_⟩
  refine ⟨(if o.includeAttrs then
              (fam.attrs.map (fun a => dump_parent_line a.1 a.2)).flatten
            else [])
          ++ (if o.incFamNotes then
                (fam.noteHandles.map (fun nh =>
                  dump_parent_noteline "Note" (db.noteRecords nh))).flatten
              else [])
          ++ [DocCall.endTable], ?_⟩
  simp [dump_marriage, marriageHeader, h, findMarriage_eq_spec db]

/-- Claim C1 witness: the marriage block of the trivial family with only the
missing-info option on decomposes as the theorem states. -/
theorem c1_marriage_selection_witness :
    (trivialFamily.eventRefs.length > 0 ∨ missingOnly.missingInfo = true
      ∨ missingOnly.includeAttrs = true)
    ∧ ∃ post, dump_marriage trivialDB missingOnly (some trivialFamily)
        = marriageHeader missingOnly trivialFamily
          ++ dump_parent_event missingOnly "Marriage"
              (specFirstMarriage trivialDB trivialFamily.eventRefs)
          ++ otherFamilyEvents trivialDB missingOnly trivialFamily.eventRefs
          ++ post :=
  ⟨Or.inr (Or.inl rfl),
   (c1_marriage_selection trivialDB missingOnly trivialFamily).2.2
     (Or.inr (Or.inl rfl))⟩

/-- Claim C7: the marriage block is emitted iff the family's event-reference
list is non-empty or the missing-info or attribute-inclusion option is on;
the row for an absent marriage event renders with empty date, place and
description. -/
theorem c7_marriage_block_condition (db : DB) (o : Options) (fam : Family) :
    (dump_marriage db o (some fam) ≠ [] ↔
      (fam.eventRefs ≠ [] ∨ o.missingInfo = true ∨ o.includeAttrs = true))
    ∧ dump_parent_event o "Marriage" none = emptyEventRow "Marriage" := by
  refine ⟨?_, dump_parent_event_none o "Marriage"⟩
  by_cases h : fam.eventRefs.length > 0 ∨ o.missingInfo = true ∨ o.includeAttrs = true
  · have hne : dump_marriage db o (some fam) ≠ [] := by
      simp [dump_marriage, h]
    have hr : fam.eventRefs ≠ [] ∨ o.missingInfo = true ∨ o.includeAttrs = true := by
      rcases h with h | h
      · exact Or.inl (List.ne_nil_of_length_pos h)
      · exact Or.inr h
    exact iff_of_true hne hr
  · have he : dump_marriage db o (some fam) = [] := by
      simp [dump_marriage, h]
    have hr : ¬(fam.eventRefs ≠ [] ∨ o.missingInfo = true ∨ o.includeAttrs = true) := by
      intro hc
      apply h
      rcases hc with hc | hc
      · exact Or.inl (List.length_pos_of_ne_nil hc)
      · exact Or.inr hc
    simp [he, hr]

/-- Claim C7 witness: with only missing-info on, the trivial family's
marriage block is emitted. -/
theorem c7_marriage_block_condition_witness :
    (trivialFamily.eventRefs ≠ [] ∨ missingOnly.missingInfo = true
      ∨ missingOnly.includeAttrs = true)
    ∧ dump_marriage trivialDB missingOnly (some trivialFamily) ≠ [] :=
  ⟨Or.inr (Or.inl rfl),
   (c7_marriage_block_condition trivialDB missingOnly trivialFamily).1.mpr
     (Or.inr (Or.inl rfl))⟩

/-- Claim C9: the child's marriage search takes the first Marriage-typed
event with no role constraint, unlike the parents' search; on
`sampleFamily10`'s event list (one Marriage-typed event with a non-family,
non-primary role) the child search finds the event while the parents'
search rejects it. -/
theorem c9_child_marriage_ignores_role (db : DB) (refs : List (Option EventRef)) :
    findChildMarriage db refs = specFirstChildMarriage db refs
    ∧ findChildMarriage sampleDB sampleFamily10.eventRefs = some marriageEvent
    ∧ findMarriage sampleDB sampleFamily10.eventRefs = none := by
  refine ⟨findChildMarriage_eq_spec db refs, ?_, ?_⟩
  · simp [findChildMarriage, sampleFamily10, sampleDB, qualifiesMarriage, marriageEvent]
  · simp [findMarriage, sampleFamily10, sampleDB, qualifiesMarriage]

/-- Claim C2: for an absent parent handle, `dump_parent` emits nothing when
the missing-info option is off, and the placeholder block built from the
empty person's display name when it is on. -/
theorem c2_absent_parent (db : DB) (o : Options) (title : String) :
    (o.missingInfo = false → dump_parent db o title none = [])
    ∧ (o.missingInfo = true →
        dump_parent db o title none = parentPlaceholderBlock title) := by
  constructor
  · intro h
    simp [dump_parent, h]
  · intro h
    simp [dump_parent, h, dumpParentPerson, parentPlaceholderBlock, Person.empty,
          dump_parent_parents, dump_parent_event, emptyEventRow, dump_parent_line,
          eventDescr]

/-- Claim C2 witness: with only missing-info on, an absent husband handle
still renders the placeholder block. -/
theorem c2_absent_parent_witness :
    missingOnly.missingInfo = true
    ∧ dump_parent trivialDB missingOnly "Husband" none
        = parentPlaceholderBlock "Husband" :=
  ⟨rfl, (c2_absent_parent trivialDB missingOnly "Husband").2 rfl⟩

/-- Flattening a map of guarded blocks equals flattening the map over the
filtered list. -/
theorem flatten_map_ite {α β : Type} (p : α → Prop) [DecidablePred p]
    (g : α → List β) :
    ∀ l : List α, (l.map (fun x => if p x then g x else [])).flatten
      = ((l.filter (fun x => decide (p x))).map g).flatten := by
  intro l
  induction l with
  | nil => rfl
  | cons a t ih =>
    by_cases h : p a
    · simp [h, ih, List.filter_cons]
    · simp [h, ih, List.filter_cons]

/-- The recursion section of `dump_family` is the flattened map of page
break plus recursive section over the filtered child-family handles. -/
theorem dump_family_rec_part (fuel : Nat) (db : DB) (o : Options) (fh gen : Nat) :
    ∀ crs : List ChildRef,
      ((crs.map (fun cr =>
        ((db.persons cr.ref).familyHandles.map (fun cfh =>
          if cfh ≠ fh then DocCall.pageBreak :: dump_family fuel db o cfh (gen + 1)
          else [])).flatten)).flatten)
      = (((crs.map (fun cr =>
            (db.persons cr.ref).familyHandles.filter (fun cfh => cfh ≠ fh))).flatten).map
          (fun cfh => DocCall.pageBreak :: dump_family fuel db o cfh (gen + 1))).flatten := by
  intro crs
  induction crs with
  | nil => rfl
  | cons c t ih =>
    simp only [List.map_cons, List.flatten_cons, List.map_append, List.flatten_append, ih]
    congr 1
    exact flatten_map_ite _ _ _

/-- Claim C3: one unfolding of `dump_family`: the title paragraph uses the
generation-numbered title exactly when both the recursion and the
generation-numbering options are on, and the recursion section descends
with generation+1 only into child families different from the current
family handle. -/
theorem c3_title_and_recursion (fuel : Nat) (db : DB) (o : Options) (fh gen : Nat) :
    dump_family (fuel + 1) db o fh gen
      = [DocCall.startParagraph "FGR-Title",
         DocCall.writeText (famTitle o gen), DocCall.endParagraph]
        ++ familyBody db o fh
        ++ ((recursedHandles db o fh).map
            (fun cfh => DocCall.pageBreak :: dump_family fuel db o cfh (gen + 1))).flatten
    ∧ fh ∉ recursedHandles db o fh
    ∧ (o.recursive = true ∧ o.generations = true →
        famTitle o gen = "Family Group Report - Generation " ++ toString gen)
    ∧ (¬(o.recursive = true ∧ o.generations = true) →
        famTitle o gen = "Family Group Report") := by
  refine ⟨?_, ?_, ?_, ?_⟩
  · by_cases hr : o.recursive = true
    · simp only [dump_family]
      rw [if_pos hr, dump_family_rec_part fuel db o fh gen]
      simp only [recursedHandles]
      rw [if_pos hr]
    · simp only [dump_family]
      rw [if_neg hr]
      simp only [recursedHandles]
      rw [if_neg hr]
      simp
  · intro hmem
    by_cases hr : o.recursive = true
    · simp [recursedHandles, hr, List.mem_flatten, List.mem_map, List.mem_filter] at hmem
    · simp [recursedHandles, hr] at hmem
  · intro h
    simp [famTitle, h.1, h.2]
  · intro h
    simp only [famTitle]
    rw [if_neg h]

/-- Claim C3 witness: with recursion and generation numbering on, a family
one level below the start is titled with generation 2. -/
theorem c3_title_and_recursion_witness :
    (recGenOpts.recursive = true ∧ recGenOpts.generations = true)
    ∧ famTitle recGenOpts 2 = "Family Group Report - Generation 2" :=
  ⟨⟨rfl, rfl⟩,
   ((c3_title_and_recursion 0 trivialDB recGenOpts 5 2).2.2.1 ⟨rfl, rfl⟩).trans rfl⟩

/-! Call-level classification machinery: the row-emitting helpers produce
only cell-level calls (no table boundaries, no page breaks, no ticks). -/


/-- Weakening of a universally-true Bool predicate on a list. -/
theorem all_imp {α : Type} {p q : α → Bool} (h : ∀ a, p a = true → q a = true) :
    ∀ {l : List α}, l.all p = true → l.all q = true := by
  intro l hl
  simp only [List.all_eq_true] at hl ⊢
  exact fun a ha => h a (hl a ha)

/-- Cell-level calls are never the tick. -/
theorem rowOnly_noTick : ∀ c, rowOnly c = true → noTick c = true := by
  intro c
  cases c <;> simp [rowOnly, noTick]

/-- Cell-level calls never open the children table. -/
theorem rowOnly_notChildrenTable : ∀ c, rowOnly c = true → notChildrenTable c = true := by
  intro c
  cases c <;> simp [rowOnly, notChildrenTable]

/-- `all` over a guarded block whose else-branch is empty. -/
theorem all_ite_nil {α : Type} {P : Prop} [Decidable P] {l : List α} {p : α → Bool}
    (h : l.all p = true) : (if P then l else []).all p = true := by
  split_ifs <;> simp [h]

/-- `all` over a flattened map. -/
theorem all_flatten_map {α β : Type} {p : β → Bool} {f : α → List β}
    (h : ∀ a, (f a).all p = true) :
    ∀ {l : List α}, ((l.map f).flatten).all p = true := by
  intro l
  induction l with
  | nil => rfl
  | cons a t ih => simp [h a, ih]

/-- `dump_parent_event` emits only cell-level calls. -/
theorem allRowOnly_parent_event (o : Options) (nm : String) (ev : Option Event) :
    (dump_parent_event o nm ev).all rowOnly = true := by
  simp only [dump_parent_event]
  split_ifs <;> simp [rowOnly]

/-- `dump_parent_line` emits only cell-level calls. -/
theorem allRowOnly_parent_line (nm tx : String) :
    (dump_parent_line nm tx).all rowOnly = true := by
  simp [dump_parent_line, rowOnly]

/-- `dump_parent_noteline` emits only cell-level calls. -/
theorem allRowOnly_parent_noteline (nm : String) (nt : Note) :
    (dump_parent_noteline nm nt).all rowOnly = true := by
  simp [dump_parent_noteline, rowOnly]

/-- `addressRow` emits only cell-level calls. -/
theorem allRowOnly_addressRow (a : Address) :
    (addressRow a).all rowOnly = true := by
  simp [addressRow, rowOnly]

/-- `dump_parent_parents` emits only cell-level calls. -/
theorem allRowOnly_parent_parents (db : DB) (o : Options) (p : Person) :
    (dump_parent_parents db o p).all rowOnly = true := by
  simp only [dump_parent_parents]
  split_ifs <;>
    simp [rowOnly, allRowOnly_parent_line, List.all_append]

/-- `otherFamilyEvents` emits only cell-level calls. -/
theorem allRowOnly_otherFamilyEvents (db : DB) (o : Options) :
    ∀ refs, (otherFamilyEvents db o refs).all rowOnly = true := by
  intro refs
  induction refs with
  | nil => rfl
  | cons hd tl ih =>
    cases hd with
    | none => simpa [otherFamilyEvents] using ih
    | some er =>
      simp only [otherFamilyEvents, List.all_append]
      refine (Bool.and_eq_true _ _).mpr ⟨all_ite_nil (allRowOnly_parent_event o _ _), ih⟩

/-- `dump_child_event` emits only cell-level calls. -/
theorem allRowOnly_child_event (t nm : String) (ev : Option Event) :
    (dump_child_event t nm ev).all rowOnly = true := by
  simp [dump_child_event, rowOnly]

/-- `spousePart` emits only cell-level calls. -/
theorem allRowOnly_spousePart (db : DB) (o : Options) (fam : Family)
    (mrg : Option Event) (idx fams : Nat) (sid : Option Nat) :
    (spousePart db o fam mrg idx fams sid).all rowOnly = true := by
  cases sid with
  | none => rfl
  | some s =>
    simp only [spousePart]
    split_ifs <;> simp [rowOnly]

/-- `marriagePart` emits only cell-level calls. -/
theorem allRowOnly_marriagePart (mrg : Option Event) (idx fams : Nat) :
    (marriagePart mrg idx fams).all rowOnly = true := by
  cases mrg with
  | none => rfl
  | some m => simpa [marriagePart] using allRowOnly_child_event _ "Marriage" (some m)

/-- `child_family_block` emits only cell-level calls. -/
theorem allRowOnly_child_family_block (db : DB) (o : Options)
    (ph fams idx fh : Nat) :
    (child_family_block db o ph fams idx fh).all rowOnly = true := by
  simp only [child_family_block, List.all_append]
  exact (Bool.and_eq_true _ _).mpr
    ⟨allRowOnly_spousePart db o _ _ idx fams _, allRowOnly_marriagePart _ idx fams⟩

/-- `dump_child_fams` emits only cell-level calls. -/
theorem allRowOnly_dump_child_fams (db : DB) (o : Options) (ph fams : Nat) :
    ∀ (idx : Nat) (l : List Nat),
      (dump_child_fams db o ph fams idx l).all rowOnly = true := by
  intro idx l
  induction l generalizing idx with
  | nil => rfl
  | cons fh rest ih =>
    simp only [dump_child_fams, List.all_append]
    exact (Bool.and_eq_true _ _).mpr
      ⟨allRowOnly_child_family_block db o ph fams (idx + 1) fh, ih (idx + 1)⟩

/-- `dump_child` emits only cell-level calls. -/
theorem allRowOnly_dump_child (db : DB) (o : Options) (idx ph : Nat) :
    (dump_child db o idx ph).all rowOnly = true := by
  simp only [dump_child]
  split_ifs <;>
    simp [rowOnly, allRowOnly_child_event, allRowOnly_dump_child_fams, List.all_append]

/-- `childrenRows` emits only cell-level calls. -/
theorem allRowOnly_childrenRows (db : DB) (o : Options) :
    ∀ (idx : Nat) (refs : List ChildRef),
      (childrenRows db o idx refs).all rowOnly = true := by
  intro idx refs
  induction refs generalizing idx with
  | nil => rfl
  | cons cr rest ih =>
    simp only [childrenRows, List.all_append]
    exact (Bool.and_eq_true _ _).mpr ⟨allRowOnly_dump_child db o idx cr.ref, ih (idx + 1)⟩

/-- Generic classification of the calls of `dumpParentPerson`: cell-level
calls plus its own table boundaries. -/
theorem all_dumpParentPerson {q : DocCall → Bool}
    (hrow : ∀ c, rowOnly c = true → q c = true)
    (db : DB) (o : Options) (t : String) (p : Person)
    (ht : q (DocCall.startTable t "FGR-ParentTable") = true)
    (he : q DocCall.endTable = true) :
    (dumpParentPerson db o t p).all q = true := by
  have hpe : ∀ nm ev, (dump_parent_event o nm ev).all q = true :=
    fun nm ev => all_imp hrow (allRowOnly_parent_event o nm ev)
  have hpl : ∀ nm tx, (dump_parent_line nm tx).all q = true :=
    fun nm tx => all_imp hrow (allRowOnly_parent_line nm tx)
  have hpn : ∀ nm nt, (dump_parent_noteline nm nt).all q = true :=
    fun nm nt => all_imp hrow (allRowOnly_parent_noteline nm nt)
  have har : ∀ a, (addressRow a).all q = true :=
    fun a => all_imp hrow (allRowOnly_addressRow a)
  have hpp : (dump_parent_parents db o p).all q = true :=
    all_imp hrow (allRowOnly_parent_parents db o p)
  have hr1 : q DocCall.startRow = true := hrow _ rfl
  have hr2 : q DocCall.endRow = true := hrow _ rfl
  have hp2 : q DocCall.endParagraph = true := hrow _ rfl
  have hc2 : q DocCall.endCell = true := hrow _ rfl
  have hq : ∀ s n, q (DocCall.startCell s n) = true := fun s n => hrow _ rfl
  have hw : ∀ s, q (DocCall.writeText s) = true := fun s => hrow _ rfl
  have hp1 : ∀ s, q (DocCall.startParagraph s) = true := fun s => hrow _ rfl
  have hev : ((p.primaryEventRefs.map (fun er =>
      if some er ≠ p.birthRef ∧ some er ≠ p.deathRef then
        dump_parent_event o (db.events er.ref).etype.display (some (db.events er.ref))
      else [])).flatten).all q = true :=
    all_flatten_map (fun er => all_ite_nil (hpe _ _))
  have haddr : ((p.addresses.map addressRow).flatten).all q = true :=
    all_flatten_map har
  have hnotes : ((p.noteHandles.map (fun nh =>
      dump_parent_noteline "Note" (db.noteRecords nh))).flatten).all q = true :=
    all_flatten_map (fun nh => hpn _ _)
  have hattrs : ((p.attrs.map (fun a =>
      dump_parent_line a.1 a.2)).flatten).all q = true :=
    all_flatten_map (fun a => hpl _ _)
  have halt : ((p.altNames.map (fun an =>
      dump_parent_line an.typeName an.display)).flatten).all q = true :=
    all_flatten_map (fun an => hpl _ _)
  simp [dumpParentPerson, List.all_append, List.all_cons, ht, he, hr1, hr2,
        hp2, hc2, hq, hw, hp1, hpe, hpp, all_ite_nil, hev, haddr, hnotes,
        hattrs, halt]

/-- Generic classification of the calls of `dump_parent`. -/
theorem all_dump_parent {q : DocCall → Bool}
    (hrow : ∀ c, rowOnly c = true → q c = true)
    (db : DB) (o : Options) (t : String) (ph : Option Nat)
    (ht : q (DocCall.startTable t "FGR-ParentTable") = true)
    (he : q DocCall.endTable = true) :
    (dump_parent db o t ph).all q = true := by
  cases ph with
  | none =>
    simp only [dump_parent]
    exact all_ite_nil (all_dumpParentPerson hrow db o t _ ht he)
  | some h => exact all_dumpParentPerson hrow db o t _ ht he

/-- Generic classification of the calls of `dump_marriage`. -/
theorem all_dump_marriage {q : DocCall → Bool}
    (hrow : ∀ c, rowOnly c = true → q c = true)
    (db : DB) (o : Options) (fam : Family)
    (ht : q (DocCall.startTable "MarriageInfo" "FGR-ParentTable") = true)
    (he : q DocCall.endTable = true) :
    (dump_marriage db o (some fam)).all q = true := by
  have hpe : ∀ nm ev, (dump_parent_event o nm ev).all q = true :=
    fun nm ev => all_imp hrow (allRowOnly_parent_event o nm ev)
  have hpl : ∀ nm tx, (dump_parent_line nm tx).all q = true :=
    fun nm tx => all_imp hrow (allRowOnly_parent_line nm tx)
  have hpn : ∀ nm nt, (dump_parent_noteline nm nt).all q = true :=
    fun nm nt => all_imp hrow (allRowOnly_parent_noteline nm nt)
  have hoe : (otherFamilyEvents db o fam.eventRefs).all q = true :=
    all_imp hrow (allRowOnly_otherFamilyEvents db o fam.eventRefs)
  have hattrs : ((fam.attrs.map (fun a =>
      dump_parent_line a.1 a.2)).flatten).all q = true :=
    all_flatten_map (fun a => hpl _ _)
  have hnotes : ((fam.noteHandles.map (fun nh =>
      dump_parent_noteline "Note" (db.noteRecords nh))).flatten).all q = true :=
    all_flatten_map (fun nh => hpn _ _)
  have hr1 : q DocCall.startRow = true := hrow _ rfl
  have hr2 : q DocCall.endRow = true := hrow _ rfl
  have hp2 : q DocCall.endParagraph = true := hrow _ rfl
  have hc2 : q DocCall.endCell = true := hrow _ rfl
  have hq : ∀ s n, q (DocCall.startCell s n) = true := fun s n => hrow _ rfl
  have hw : ∀ s, q (DocCall.writeText s) = true := fun s => hrow _ rfl
  have hp1 : ∀ s, q (DocCall.startParagraph s) = true := fun s => hrow _ rfl
  simp [dump_marriage, List.all_append, List.all_cons, ht, he, hr1, hr2, hp2,
        hc2, hq, hw, hp1, hpe, hoe, hattrs, hnotes, all_ite_nil]

/-- Generic classification of the calls of `childrenSection`. -/
theorem all_childrenSection {q : DocCall → Bool}
    (hrow : ∀ c, rowOnly c = true → q c = true)
    (db : DB) (o : Options) (fam : Family)
    (hct : q (DocCall.startTable "FGR-Children" "FGR-ChildTable") = true)
    (he : q DocCall.endTable = true) :
    (childrenSection db o fam).all q = true := by
  have hcr : (childrenRows db o 1 fam.childRefs).all q = true :=
    all_imp hrow (allRowOnly_childrenRows db o 1 fam.childRefs)
  have hr1 : q DocCall.startRow = true := hrow _ rfl
  have hr2 : q DocCall.endRow = true := hrow _ rfl
  have hp2 : q DocCall.endParagraph = true := hrow _ rfl
  have hc2 : q DocCall.endCell = true := hrow _ rfl
  have hq : ∀ s n, q (DocCall.startCell s n) = true := fun s n => hrow _ rfl
  have hw : ∀ s, q (DocCall.writeText s) = true := fun s => hrow _ rfl
  have hp1 : ∀ s, q (DocCall.startParagraph s) = true := fun s => hrow _ rfl
  simp [childrenSection, blankPara, List.all_append, List.all_cons, hct, he,
        hr1, hr2, hp2, hc2, hq, hw, hp1, hcr, all_ite_nil]

/-- Generic classification of the calls of `familyBody`, given a
classification of its children table. -/
theorem all_familyBody {q : DocCall → Bool}
    (hrow : ∀ c, rowOnly c = true → q c = true)
    (db : DB) (o : Options) (fh : Nat)
    (hh : q (DocCall.startTable "Husband" "FGR-ParentTable") = true)
    (hw2 : q (DocCall.startTable "Wife" "FGR-ParentTable") = true)
    (hm : q (DocCall.startTable "MarriageInfo" "FGR-ParentTable") = true)
    (he : q DocCall.endTable = true)
    (hcs : (childrenSection db o (db.families fh)).all q = true) :
    (familyBody db o fh).all q = true := by
  have hbl : blankPara.all q = true := by
    simp [blankPara, hrow DocCall.endParagraph rfl,
          hrow (DocCall.startParagraph "FGR-blank") rfl]
  have hmar : ((dump_marriage db o (some (db.families fh))) ++ blankPara).all q = true := by
    simp only [List.all_append, Bool.and_eq_true]
    exact ⟨all_dump_marriage hrow db o _ hm he, hbl⟩
  simp only [familyBody, List.all_append, Bool.and_eq_true]
  exact ⟨⟨⟨⟨all_dump_parent hrow db o "Husband" _ hh he, hbl⟩,
          all_ite_nil hmar⟩,
         all_dump_parent hrow db o "Wife" _ hw2 he⟩, hcs⟩

/-- A call failing the predicate cannot occur in a list satisfying `all`. -/
theorem not_mem_of_all_of_neg {α : Type} {p : α → Bool} {l : List α}
    (h : l.all p = true) {a : α} (ha : p a = false) : a ∉ l := by
  intro hm
  have := List.all_eq_true.mp h a hm
  rw [ha] at this
  exact Bool.false_ne_true this

/-- No call of `familyBody` is a progress tick. -/
theorem noTick_familyBody (db : DB) (o : Options) (fh : Nat) :
    (familyBody db o fh).all noTick = true :=
  all_familyBody rowOnly_noTick db o fh rfl rfl rfl rfl
    (all_childrenSection rowOnly_noTick db o _ rfl rfl)

/-- `dump_family` never emits a progress tick (as an `all` fact). -/
theorem noTick_dump_family :
    ∀ (fuel : Nat) (db : DB) (o : Options) (fh gen : Nat),
      (dump_family fuel db o fh gen).all noTick = true := by
  intro fuel
  induction fuel with
  | zero => intro db o fh gen; rfl
  | succ n ih =>
    intro db o fh gen
    simp only [dump_family, List.all_append, List.all_cons, Bool.and_eq_true]
    refine ⟨⟨?_, noTick_familyBody db o fh⟩, ?_⟩
    · simp [noTick]
    · refine all_ite_nil (all_flatten_map (fun cr => all_flatten_map (fun cfh => ?_)))
      refine all_ite_nil ?_
      simp [List.all_cons, noTick, ih db o cfh (gen + 1)]

/-- `dump_family` never emits a progress tick. -/
theorem tick_not_mem_dump_family (fuel : Nat) (db : DB) (o : Options) (fh gen : Nat) :
    DocCall.tick ∉ dump_family fuel db o fh gen :=
  not_mem_of_all_of_neg (noTick_dump_family fuel db o fh gen) rfl

/-- Tick count of the driver's per-family loop: one per family. -/
theorem count_tick_family_loop (fuel : Nat) (db : DB) (o : Options) :
    ∀ l : List Nat,
      (((l.map (fun fh =>
          dump_family fuel db o fh 1 ++ [DocCall.pageBreak, DocCall.tick])).flatten).count
        DocCall.tick) = l.length := by
  intro l
  induction l with
  | nil => rfl
  | cons a t ih =>
    simp only [List.map_cons, List.flatten_cons, List.count_append, ih]
    rw [List.count_eq_zero.mpr (tick_not_mem_dump_family fuel db o a 1)]
    simp [List.count_cons]
    omega


/-- Claim C4: the driver renders every filtered family at generation 1
followed by a page break, with exactly one progress tick per family; on an
empty list it emits a single title-only page — one title paragraph, no
table, no page break. -/
theorem c4_driver (fuel : Nat) (db : DB) (o : Options) (fam_list : List Nat) :
    (fam_list ≠ [] →
      write_report fuel db o fam_list
        = (fam_list.map (fun fh =>
            dump_family fuel db o fh 1 ++ [DocCall.pageBreak, DocCall.tick])).flatten
      ∧ (write_report fuel db o fam_list).count DocCall.tick = fam_list.length)
    ∧ (fam_list = [] →
        write_report fuel db o fam_list
          = [DocCall.startParagraph "FGR-Title",
             DocCall.writeText "Family Group Report", DocCall.endParagraph]
        ∧ DocCall.pageBreak ∉ write_report fuel db o fam_list
        ∧ (∀ n s, DocCall.startTable n s ∉ write_report fuel db o fam_list)
        ∧ ((write_report fuel db o fam_list).filter isStartParagraph).length = 1) := by
  constructor
  · intro hne
    match fam_list, hne with
    | fh :: rest, _ =>
      refine ⟨rfl, ?_⟩
      exact count_tick_family_loop fuel db o (fh :: rest)
  · intro he
    subst he
    refine ⟨rfl, ?_, ?_, ?_⟩
    · intro h
      simp [write_report] at h
    · intro n s h
      simp [write_report] at h
    · rfl

/-- Claim C4 witness: on the one-element family list the driver emits
exactly one tick. -/
theorem c4_driver_witness :
    ((0 : Nat) :: [] ≠ [])
    ∧ (write_report 1 trivialDB allOff [0]).count DocCall.tick = 1 :=
  ⟨List.cons_ne_nil 0 [],
   ((c4_driver 1 trivialDB allOff [0]).1 (List.cons_ne_nil 0 [])).2.trans rfl⟩

/-- With no children the section is omitted and the family body opens no
children table. -/
theorem noChildTable_familyBody (db : DB) (o : Options) (fh : Nat)
    (h : (db.families fh).childRefs = []) :
    (familyBody db o fh).all notChildrenTable = true := by
  refine all_familyBody rowOnly_notChildrenTable db o fh rfl rfl rfl rfl ?_
  simp [childrenSection, h]

/-- Claim C5: for a family with an empty child-reference list, the children
table contributes nothing: the section is empty and no children-table
opening call occurs anywhere in the family body. -/
theorem c5_no_children_table (db : DB) (o : Options) (fh : Nat) :
    (db.families fh).childRefs = [] →
      childrenSection db o (db.families fh) = []
      ∧ ∀ s, DocCall.startTable "FGR-Children" s ∉ familyBody db o fh := by
  intro h
  constructor
  · simp [childrenSection, h]
  · intro s
    refine not_mem_of_all_of_neg (noChildTable_familyBody db o fh h) ?_
    simp [notChildrenTable]

/-- Claim C5 witness: the trivial childless family renders no children
table. -/
theorem c5_no_children_table_witness :
    (trivialDB.families 0).childRefs = []
    ∧ (childrenSection trivialDB allOff (trivialDB.families 0) = []
        ∧ ∀ s, DocCall.startTable "FGR-Children" s ∉ familyBody trivialDB allOff 0) :=
  ⟨rfl, c5_no_children_table trivialDB allOff 0 rfl⟩

/-- The children loop renders one `dump_child` block per child, in list
order, with indices counting up from the start index. -/
theorem childrenRows_eq_zip (db : DB) (o : Options) :
    ∀ (k : Nat) (refs : List ChildRef),
      childrenRows db o k refs
        = ((refs.zip (List.range' k refs.length)).map
            (fun p => dump_child db o p.2 p.1.ref)).flatten := by
  intro k refs
  induction refs generalizing k with
  | nil => rfl
  | cons cr rest ih =>
    simp [childrenRows, List.range'_succ, ih (k + 1)]

/-- Claim C6: children are rendered in child-reference-list order with
one-based indices increasing by 1, and each child's index label carries the
sex code matching the recorded gender (index plus M, F, or U). -/
theorem c6_children_order_and_sex (db : DB) (o : Options) (refs : List ChildRef) :
    childrenRows db o 1 refs
      = ((refs.zip (List.range' 1 refs.length)).map
          (fun p => dump_child db o p.2 p.1.ref)).flatten
    ∧ (∀ (idx ph : Nat), (dump_child db o idx ph)[3]?
          = some (DocCall.writeText (sexIndexLabel (db.persons ph).gender idx)))
    ∧ (∀ idx : Nat, sexIndexLabel Gender.male idx = toString idx ++ "M"
        ∧ sexIndexLabel Gender.female idx = toString idx ++ "F"
        ∧ sexIndexLabel Gender.unknown idx = toString idx ++ "U") :=
  ⟨childrenRows_eq_zip db o 1 refs,
   fun _ _ => rfl,
   fun _ => ⟨rfl, rfl, rfl⟩⟩

/-- Claim C8 counterexample: for a child with a birth event whose single
family has a Marriage-typed event but no spouse handle, with missing-info
off and children's marriages on, the birth row already takes the closing
style while the marriage-event row still follows — the claimed "last row
closes, earlier rows continue" discipline fails. -/
theorem c8_styles_counterexample :
    goodStylesB (leadCellStyles false (dump_child sampleDB chiMarOnly 1 1)) = false := by
  decide

/-- Claim C8 (amended): with the children's-marriage option disabled, the
last row emitted for a child group takes the closing cell style
('FGR-TextChild2') and every earlier row the continuing style
('FGR-TextChild1'), for all option combinations and data shapes. -/
theorem c8_styles_amended (db : DB) (o : Options) (idx ph : Nat)
    (h : o.incChiMar = false) :
    goodStylesB (leadCellStyles false (dump_child db o idx ph)) = true := by
  have hsc : spouseCount db o ph (db.persons ph) = 0 := by
    simp [spouseCount, h]
  cases hb : (db.persons ph).birthRef <;> cases hd : (db.persons ph).deathRef <;>
    cases hm : o.missingInfo <;> cases hg : o.gramps_ids <;>
      simp [dump_child, hsc, h, hb, hd, hm, hg, dump_child_event,
            leadCellStyles, goodStylesB]

/-- Claim C8 witness: the empty child record under all-off options satisfies
the amended styling discipline. -/
theorem c8_styles_amended_witness :
    allOff.incChiMar = false
    ∧ goodStylesB (leadCellStyles false (dump_child trivialDB allOff 1 0)) = true :=
  ⟨rfl, c8_styles_amended trivialDB allOff 1 0 rfl⟩

/-- Claim C10: within a child's family loop the spouse row is emitted only
when the other-parent handle is present, while the marriage-event row is
emitted whenever a Marriage-typed event is found, independently; on
`sampleFamily10` (marriage event, absent spouse) a marriage-event row
appears with no spouse row. -/
theorem c10_spouse_marriage_rows (db : DB) (o : Options) (ph fams idx fh : Nat) :
    child_family_block db o ph fams idx fh
      = spousePart db o (db.families fh)
          (findChildMarriage db (db.families fh).eventRefs) idx fams
          (spouseIdOf ph (db.families fh))
        ++ marriagePart (findChildMarriage db (db.families fh).eventRefs) idx fams
    ∧ (spouseIdOf ph (db.families fh) = none →
        child_family_block db o ph fams idx fh
          = marriagePart (findChildMarriage db (db.families fh).eventRefs) idx fams)
    ∧ (∀ m : Event, marriagePart (some m) idx fams ≠ [])
    ∧ child_family_block sampleDB chiMarOnly 1 1 1 10
        = marriagePart (some marriageEvent) 1 1
    ∧ DocCall.writeText "Spouse" ∉ child_family_block sampleDB chiMarOnly 1 1 1 10
    ∧ child_family_block sampleDB chiMarOnly 1 1 1 10 ≠ [] := by
  refine ⟨rfl, ?_, ?_, ?_, ?_, ?_⟩
  · intro h
    simp [child_family_block, h, spousePart]
  · intro m
    simp only [marriagePart]
    split_ifs <;> simp [dump_child_event]
  · decide
  · decide
  · decide

/-- Claim C10 witness: on `sampleFamily10` the spouse handle is absent and
the block reduces to the marriage-event row alone. -/
theorem c10_spouse_marriage_rows_witness :
    spouseIdOf 1 (sampleDB.families 10) = none
    ∧ child_family_block sampleDB chiMarOnly 1 1 1 10
        = marriagePart (findChildMarriage sampleDB (sampleDB.families 10).eventRefs) 1 1 :=
  ⟨rfl, (c10_spouse_marriage_rows sampleDB chiMarOnly 1 1 1 10).2.1 rfl⟩

end FamilyGroup
